import Mathlib

/-!
Verification development for the vale-audit pipeline.

Shallow embedding of the repository's core components:
  * `validation.js` (field comparators and the decision policy),
  * `gemini.js` (retry-wrapped oracle caller, extraction-only variant),
  * `audit.js` (record orchestration and the unprocessed-record filter),
  * `bucket.js` (blob store, processing-ledger index).

Modeling conventions:
  * JS numbers (IEEE doubles) are modeled as exact rationals `ℚ`; `NaN` is
    modeled by `Option` (`none` = not-a-number).  Float rounding artifacts
    are outside the model.
  * JS strings are Lean `String`s; `trim`/`toUpperCase` are modeled on the
    ASCII fragment that the audited data uses.
  * `Number(s)` and `parseFloat(s)` are modeled on decimal numerals
    (optional sign, digits, fraction, exponent).  Hexadecimal literals and
    `Infinity` are not modeled; for the date path this is faithful because
    ES `MakeDay` maps an infinite component to `NaN` anyway.
  * JS `Date` values built by `new Date(y, m, d)` at local midnight are
    modeled by their civil day number (proleptic Gregorian); the runtime is
    assumed to be in a fixed-offset timezone (America/Bogota has no DST),
    where millisecond differences between two local midnights are exact
    multiples of 86 400 000, so `Math.ceil(diffMs / 86400000)` is exactly
    the absolute day difference.
  * Fallible JS code (thrown exceptions) is modeled with `Except`.
-/

namespace Dumpify

/-- Kernel-reducible rational addition (the library `Rat.add` is
`@[irreducible]`); proved equal to `+` in `qAdd_eq`. -/
def qAdd (a b : ℚ) : ℚ := mkRat (a.num * b.den + b.num * a.den) (a.den * b.den)

/-- Kernel-reducible rational subtraction; proved equal to `-` in `qSub_eq`. -/
def qSub (a b : ℚ) : ℚ := mkRat (a.num * b.den - b.num * a.den) (a.den * b.den)

/-- Kernel-reducible rational multiplication; proved equal to `*` in `qMul_eq`. -/
def qMul (a b : ℚ) : ℚ := mkRat (a.num * b.num) (a.den * b.den)

/-- Kernel-reducible absolute value; proved equal to `|·|` in `qAbs_eq`. -/
def qAbs (a : ℚ) : ℚ := if a < 0 then -a else a

/-- Kernel-reducible `q * 10^e` for an integer `e`; proved equal to the
`zpow` form in `scalePow10_eq`. -/
def scalePow10 (q : ℚ) (e : Int) : ℚ :=
  if 0 ≤ e then mkRat (q.num * (10 : Nat) ^ e.toNat) q.den
  else mkRat q.num (q.den * (10 : Nat) ^ (-e).toNat)

theorem qAdd_eq (a b : ℚ) : qAdd a b = a + b := by
  rw [qAdd, Rat.mkRat_eq_div]
  push_cast
  conv_rhs => rw [← Rat.num_div_den a, ← Rat.num_div_den b]
  rw [div_add_div _ _ (by positivity : ((a.den : ℚ)) ≠ 0) (by positivity : ((b.den : ℚ)) ≠ 0)]
  ring_nf

theorem qSub_eq (a b : ℚ) : qSub a b = a - b := by
  rw [qSub, Rat.mkRat_eq_div]
  push_cast
  conv_rhs => rw [← Rat.num_div_den a, ← Rat.num_div_den b]
  rw [div_sub_div _ _ (by positivity : ((a.den : ℚ)) ≠ 0) (by positivity : ((b.den : ℚ)) ≠ 0)]
  ring_nf

theorem qMul_eq (a b : ℚ) : qMul a b = a * b := by
  rw [qMul, Rat.mkRat_eq_div]
  push_cast
  conv_rhs => rw [← Rat.num_div_den a, ← Rat.num_div_den b]
  rw [div_mul_div_comm]

theorem qAbs_eq (a : ℚ) : qAbs a = |a| := by
  rw [qAbs]
  split_ifs with h
  · exact (abs_of_neg h).symm
  · exact (abs_of_nonneg (not_lt.mp h)).symm

theorem scalePow10_eq (q : ℚ) (e : Int) : scalePow10 q e = q * (10 : ℚ) ^ e := by
  rw [scalePow10]
  split_ifs with h
  · rw [Rat.mkRat_eq_div]
    push_cast
    rw [← zpow_natCast (10 : ℚ) e.toNat, Int.toNat_of_nonneg h]
    conv_rhs => rw [← Rat.num_div_den q]
    rw [div_mul_eq_mul_div]
  · have hpow : ((10 : ℚ) ^ (-e)) ≠ 0 := zpow_ne_zero _ (by norm_num)
    rw [Rat.mkRat_eq_div]
    push_cast
    rw [← zpow_natCast (10 : ℚ) (-e).toNat, Int.toNat_of_nonneg (by omega : (0 : ℤ) ≤ -e)]
    conv_rhs => rw [← Rat.num_div_den q, show e = -(-e) from (neg_neg e).symm, zpow_neg]
    rw [div_mul_eq_div_div, div_eq_mul_inv (((q.num : ℚ)) / q.den)]

/-- Value of a list of decimal digit characters. -/
def digitsVal (ds : List Char) : Nat :=
  ds.foldl (fun n c => 10 * n + (c.toNat - 48)) 0

/-- Rational value of an integer part and a fraction part given as digit
lists: `ip + fp / 10^|fp|`, written over a common denominator so it
kernel-reduces. -/
def decOfDigits (ip fp : List Char) : ℚ :=
  mkRat (digitsVal ip * (10 : Nat) ^ fp.length + digitsVal fp) ((10 : Nat) ^ fp.length)

theorem decOfDigits_eq (ip fp : List Char) :
    decOfDigits ip fp = (digitsVal ip : ℚ) + (digitsVal fp : ℚ) / ((10 : ℚ) ^ fp.length) := by
  rw [decOfDigits, Rat.mkRat_eq_div]
  push_cast
  rw [add_div, mul_div_assoc, div_self (by positivity), mul_one]

/-- Truncation toward zero on `ℚ` (ES `ToIntegerOrInfinity` on a finite value). -/
def ratTrunc (q : ℚ) : Int :=
  if q < 0 then -(Int.floor (-q)) else Int.floor q

/-- JS `trim()` on the ASCII fragment, written over the character list so
it kernel-reduces. -/
def jsTrim (s : String) : String :=
  ⟨((s.data.dropWhile (·.isWhitespace)).reverse.dropWhile (·.isWhitespace)).reverse⟩

/-- JS `toUpperCase()` on the ASCII fragment, written over the character
list so it kernel-reduces. -/
def jsToUpper (s : String) : String :=
  ⟨s.data.map Char.toUpper⟩

/-- Accumulator loop for `splitOnChar`. -/
def splitOnCharAux (sep : Char) : List Char → List Char → List String
  | [], acc => [⟨acc.reverse⟩]
  | c :: rest, acc =>
    if c = sep then ⟨acc.reverse⟩ :: splitOnCharAux sep rest []
    else splitOnCharAux sep rest (c :: acc)

/-- JS `s.split(sep)` for a one-character separator (structural recursion
over the character list so it kernel-reduces; agrees with
`String.splitOn` on these inputs). -/
def splitOnChar (sep : Char) (s : String) : List String :=
  splitOnCharAux sep s.data []

/-- Model of JS `Number(s)` (`ToNumber` on a string), on the decimal fragment:
leading/trailing whitespace is trimmed, the empty string converts to `0`,
a signed decimal numeral with optional fraction and exponent converts to its
value, anything else is `NaN` (`none`).  `Infinity` is mapped to `none`,
which is faithful for the only use site (`MakeDay` maps infinite components
to `NaN`); hexadecimal/octal/binary numerals are not modeled. -/
def jsNumber (s : String) : Option ℚ :=
  let cs := (jsTrim s).toList
  if cs.isEmpty then some 0
  else
    let sgncs : Bool × List Char :=
      match cs with
      | '-' :: r => (true, r)
      | '+' :: r => (false, r)
      | _ => (false, cs)
    let neg := sgncs.1
    let ipcs := sgncs.2.span (·.isDigit)
    let ip := ipcs.1
    let fpcs : List Char × List Char :=
      match ipcs.2 with
      | '.' :: r => r.span (·.isDigit)
      | _ => ([], ipcs.2)
    let fp := fpcs.1
    if ip.isEmpty ∧ fp.isEmpty then none
    else
      match fpcs.2 with
      | [] =>
        let mag := decOfDigits ip fp
        some (if neg then -mag else mag)
      | 'e' :: r | 'E' :: r =>
        let esr : Bool × List Char :=
          match r with
          | '-' :: r2 => (true, r2)
          | '+' :: r2 => (false, r2)
          | _ => (false, r)
        let edr := esr.2.span (·.isDigit)
        if edr.1.isEmpty ∨ ¬ edr.2.isEmpty then none
        else
          let e : Int := if esr.1 then -(digitsVal edr.1 : Int) else (digitsVal edr.1 : Int)
          let mag := scalePow10 (decOfDigits ip fp) e
          some (if neg then -mag else mag)
      | _ => none

/-- Model of JS `parseFloat(s)` on the decimal fragment: skips leading
whitespace, parses the longest signed decimal-numeral prefix (optional
fraction and exponent), ignores trailing garbage; `NaN` (no numeral prefix)
is `none`.  `Infinity` is not modeled. -/
def jsParseFloat (s : String) : Option ℚ :=
  let cs := s.toList.dropWhile (·.isWhitespace)
  let sgncs : Bool × List Char :=
    match cs with
    | '-' :: r => (true, r)
    | '+' :: r => (false, r)
    | _ => (false, cs)
  let neg := sgncs.1
  let ipcs := sgncs.2.span (·.isDigit)
  let ip := ipcs.1
  let fpcs : List Char × List Char :=
    match ipcs.2 with
    | '.' :: r => r.span (·.isDigit)
    | _ => ([], ipcs.2)
  let fp := fpcs.1
  if ip.isEmpty ∧ fp.isEmpty then none
  else
    let mag := decOfDigits ip fp
    let base := if neg then -mag else mag
    match fpcs.2 with
    | 'e' :: r | 'E' :: r =>
      let esr : Bool × List Char :=
        match r with
        | '-' :: r2 => (true, r2)
        | '+' :: r2 => (false, r2)
        | _ => (false, r)
      let ed := esr.2.span (·.isDigit) |>.1
      if ed.isEmpty then some base
      else
        let e : Int := if esr.1 then -(digitsVal ed : Int) else (digitsVal ed : Int)
        some (scalePow10 base e)
    | _ => some base

/-- Day number of the civil (proleptic Gregorian) date `y-m-d`, `m ∈ 1..12`,
relative to the Unix epoch 1970-01-01 (Howard Hinnant's `days_from_civil`,
linear in `d`, so out-of-range `d` normalizes exactly as ES `MakeDay`). -/
def daysFromCivil (y m d : Int) : Int :=
  let y1 := if m ≤ 2 then y - 1 else y
  let era := Int.fdiv y1 400
  let yoe := y1 - era * 400
  let mp := Int.emod (m + 9) 12
  let doy := Int.fdiv (153 * mp + 2) 5 + d - 1
  let doe := yoe * 365 + Int.fdiv yoe 4 - Int.fdiv yoe 100 + doy
  era * 146097 + doe - 719468

/-- `new Date(y, m, d)` on finite arguments: the constructor first applies
ES `MakeFullYear` — a year whose truncation lies in `0..99` becomes
`1900 + year` (so "00" is 1900, not a leap year, and "25" is 1925) — and
then `MakeDay`: months are 0-based and normalize with floored
division/modulo, each component is truncated toward zero, and the result
is the civil day number. -/
def makeDay (y m d : ℚ) : Int :=
  let yi := ratTrunc y
  let yr := if 0 ≤ yi ∧ yi ≤ 99 then 1900 + yi else yi
  let mi := ratTrunc m
  let di := ratTrunc d
  let ym := yr + Int.fdiv mi 12
  let mn := Int.emod mi 12
  daysFromCivil ym (mn + 1) 1 + (di - 1)

/-- `new Date(eYear, eMonth - 1, eDay)` for `[eDay, eMonth, eYear] =
s.split("/").map(Number)`: the day number of the resulting local-midnight
date, or `none` for an Invalid Date (some component `NaN`, which also
covers fewer than three `/`-separated parts, where the missing destructured
component is `undefined` and `ToNumber(undefined) = NaN`). -/
def parseJsDate (s : String) : Option Int :=
  match splitOnChar '/' s with
  | p1 :: p2 :: p3 :: _ =>
    match jsNumber p1, jsNumber p2, jsNumber p3 with
    | some d, some m, some y => some (makeDay y (qSub m 1) d)
    | _, _, _ => none
  | _ => none

/-- Per-field comparison record `{coincide, observacion}`.  The source also
echoes `extracted`/`expected` into these objects; those fields carry no
control flow and are omitted. -/
structure Comparison where
  coincide : Bool
  observacion : String
deriving DecidableEq, Repr

/-- `compareDates` from `validation.js`: empty argument short-circuit, then
`DD/MM/YYYY` parse on both sides and absolute day difference with ±2-day
tolerance.  An unparseable non-empty date gives an Invalid Date, `diffDays
= NaN`, and both `NaN === 0` and `NaN <= 2` are false, so control falls to
the out-of-tolerance branch with `NaN` interpolated into the message. -/
def compareDates (extractedDate expectedDate : String) : Comparison :=
  if extractedDate = "" ∨ expectedDate = "" then
    ⟨false, "Fecha vacía o inválida"⟩
  else
    match parseJsDate extractedDate, parseJsDate expectedDate with
    | some t1, some t2 =>
      let diffDays := (t1 - t2).natAbs
      if diffDays = 0 then ⟨true, ""⟩
      else if diffDays ≤ 2 then
        ⟨true, "Diferencia de " ++ toString diffDays ++ " día(s), dentro de tolerancia"⟩
      else
        ⟨false, "Diferencia de " ++ toString diffDays ++ " días, fuera de tolerancia (máximo 2 días)"⟩
    | _, _ => ⟨false, "Diferencia de NaN días, fuera de tolerancia (máximo 2 días)"⟩

/-- A thrown JS error, as far as the retry logic inspects it: `error.status`
(absent on non-HTTP errors such as `TypeError`/`SyntaxError`), the parsed
`RetryInfo` retry delay in seconds when `error.errorDetails` carries a
`google.rpc.RetryInfo` entry whose `retryDelay` matches `/(\d+)s/`, and a
tag identifying the error object. -/
structure GError where
  status : Option Nat
  retryDelaySeconds : Option Nat
  tag : String
deriving DecidableEq, Repr

/-- The `TypeError` raised by `expectedPlaca.trim()` when `expectedPlaca` is
`null`/`undefined` (message text representative). -/
def placaTypeError : GError :=
  ⟨none, none, "TypeError: Cannot read properties of undefined (reading trim)"⟩

/-- `comparePlaca` on a string `expectedPlaca` (the non-throwing case):
empty extraction short-circuit, otherwise trim + uppercase both sides and
exact equality. -/
def comparePlacaStr (extractedPlaca expectedPlaca : String) : Comparison :=
  if extractedPlaca = "" then ⟨false, "Placa no extraída"⟩
  else
    let extracted := jsToUpper (jsTrim extractedPlaca)
    let expected := jsToUpper (jsTrim expectedPlaca)
    if extracted = expected then ⟨true, ""⟩
    else ⟨false, "Placa extraída \"" ++ extracted ++ "\" no coincide con \"" ++ expected ++ "\""⟩

/-- `comparePlaca` from `validation.js` at its real interface: the expected
placa may be `null`/`undefined` (`none`), in which case `expected.trim()`
throws — but only after the `!extractedPlaca` guard, so an empty extracted
placa still returns normally. -/
def comparePlaca (extractedPlaca : String) (expectedPlaca : Option String) :
    Except GError Comparison :=
  if extractedPlaca = "" then .ok ⟨false, "Placa no extraída"⟩
  else
    match expectedPlaca with
    | none => .error placaTypeError
    | some e => .ok (comparePlacaStr extractedPlaca e)

/-- The inline `numeroVale` comparison: strict string equality. -/
def compareNumeroVale (extracted expected : String) : Comparison :=
  if extracted = expected then ⟨true, ""⟩
  else ⟨false, "Número extraído \"" ++ extracted ++ "\" no coincide con \"" ++ expected ++ "\""⟩

/-- The inline `m3` comparison: parse both sides with `parseFloat`, match
iff both parse and the absolute difference is below `0.01`. -/
def compareM3 (extracted expected : String) : Comparison :=
  let m3Match : Bool :=
    match jsParseFloat extracted, jsParseFloat expected with
    | some a, some b => decide (qAbs (qSub a b) < mkRat 1 100)
    | _, _ => false
  if m3Match then ⟨true, ""⟩
  else ⟨false, "Cantidad extraída \"" ++ extracted ++ "\" no coincide con \"" ++ expected ++ "\""⟩

/-- One extracted field `{valor, confianza}`. -/
structure FieldExtraction where
  valor : String
  confianza : ℚ
deriving DecidableEq, Repr

/-- The oracle's parsed extraction payload. -/
structure ExtractionResult where
  numeroVale : FieldExtraction
  placa : FieldExtraction
  m3 : FieldExtraction
  fecha : FieldExtraction
deriving DecidableEq, Repr

/-- The reference values from the tabular source.  `placa` is `Option` to
capture the real interface, where a missing column reaches `comparePlaca`
as `undefined` (claim C10); `m3` arrives through `String(expectedValues.m3)`,
which is the identity on strings. -/
structure ExpectedValues where
  numeroVale : String
  placa : Option String
  m3 : String
  fecha : String
deriving DecidableEq, Repr

/-- The four comparisons, in the source's insertion order. -/
structure Comparaciones where
  numeroVale : Comparison
  placa : Comparison
  m3 : Comparison
  fecha : Comparison
deriving DecidableEq, Repr

/-- Return value of `validateExtraction`. -/
structure ValidationResult where
  comparaciones : Comparaciones
  aprobado : Bool
  status : String
  manualReviewReason : Option String
deriving DecidableEq, Repr

/-- The confidence threshold below which a field needs manual review
(`0.7`, written as an explicit rational so comparisons kernel-reduce). -/
def CONFIDENCE_THRESHOLD : ℚ := mkRat 7 10

/-- JS `q.toFixed(0)`: round to the nearest integer, ties away from zero
(the ES spec picks the larger candidate on the magnitude). -/
def jsToFixed0 (q : ℚ) : String :=
  if q < 0 then ("-") ++ toString (Int.floor (qAdd (-q) (mkRat 1 2)))
  else toString (Int.floor (qAdd q (mkRat 1 2)))

/-- `lowConfidenceFields`: the labels pushed for each field whose extraction
confidence is below the threshold, in source order, with the confidence as
a percentage. -/
def lowConfidenceFields (er : ExtractionResult) : List String :=
  (if er.numeroVale.confianza < CONFIDENCE_THRESHOLD then
    ["numeroVale (" ++ jsToFixed0 (qMul er.numeroVale.confianza 100) ++ "%)"] else []) ++
  (if er.placa.confianza < CONFIDENCE_THRESHOLD then
    ["placa (" ++ jsToFixed0 (qMul er.placa.confianza 100) ++ "%)"] else []) ++
  (if er.m3.confianza < CONFIDENCE_THRESHOLD then
    ["m3 (" ++ jsToFixed0 (qMul er.m3.confianza 100) ++ "%)"] else []) ++
  (if er.fecha.confianza < CONFIDENCE_THRESHOLD then
    ["fecha (" ++ jsToFixed0 (qMul er.fecha.confianza 100) ++ "%)"] else [])

/-- The tail of `validateExtraction` after the comparisons are built: the
empty-extraction short-circuit, then the `allMatch`/`hasLowConfidence`
decision ladder.  `allMatch` conjoins the four comparisons in insertion
order; `hasLowConfidence` is `lowConfidenceFields.length > 0`. -/
def decideStatus (er : ExtractionResult) (comps : Comparaciones) : ValidationResult :=
  if er.numeroVale.valor = "" ∨ er.placa.valor = "" ∨ er.m3.valor = "" ∨ er.fecha.valor = "" then
    ⟨comps, false, "requiere_revision_manual", some ("Uno o más campos no pudieron ser extraídos")⟩
  else
    let lcf := lowConfidenceFields er
    let allMatch : Bool :=
      comps.numeroVale.coincide && comps.placa.coincide && comps.m3.coincide && comps.fecha.coincide
    if allMatch ∧ lcf = [] then ⟨comps, true, "aprobado", none⟩
    else if allMatch ∧ lcf ≠ [] then
      ⟨comps, false, "requiere_revision_manual",
        some ("Confianza baja en: " ++ String.intercalate (", ") lcf)⟩
    else if ¬ (allMatch = true) ∧ lcf ≠ [] then
      ⟨comps, false, "requiere_revision_manual",
        some ("Inconsistencias con confianza baja en: " ++ String.intercalate (", ") lcf)⟩
    else ⟨comps, false, "inconsistencias_encontradas", none⟩

/-- `validateExtraction` from `validation.js`.  The comparisons are built
first (so `comparePlaca` can throw before the empty-extraction check), then
the decision ladder runs.  `validPlacas` is accepted and unused, as in the
source. -/
def validateExtraction (er : ExtractionResult) (ev : ExpectedValues)
    (validPlacas : List String) : Except GError ValidationResult :=
  match comparePlaca er.placa.valor ev.placa with
  | .error e => .error e
  | .ok cPlaca =>
    let comps : Comparaciones :=
      ⟨compareNumeroVale er.numeroVale.valor ev.numeroVale,
       cPlaca,
       compareM3 er.m3.valor ev.m3,
       compareDates er.fecha.valor ev.fecha⟩
    .ok (decideStatus er comps)

/-! ## Retry-wrapped oracle caller (`auditWithGemini`, extraction-only variant) -/

/-- Outcome of one `model.generateContent` extraction call: the cleaned
response text parses to an extraction payload, fails to parse (carrying the
`SyntaxError` message), or the call throws a transport error. -/
inductive OracleReply where
  | valid (er : ExtractionResult)
  | malformed (parseMsg : String)
  | raised (e : GError)
deriving DecidableEq, Repr

/-- Outcome of the best-effort quality gate on the first attempt: readable
(proceed), not readable (short-circuit to manual review), or the gate call
itself failed (logged, proceed anyway). -/
inductive QualityOutcome where
  | readable
  | notReadable (score : Nat) (reason : String)
  | gateCheckFailed
deriving DecidableEq, Repr

/-- Result of a completed `auditWithGemini` run: either the quality-gate
manual-review short-circuit, or a parsed extraction with its validation. -/
inductive GeminiOutcome where
  | manualReview (score : Nat) (reason : String)
  | extracted (er : ExtractionResult) (v : ValidationResult)
deriving DecidableEq, Repr

/-- `error.status === 429 || (error.status >= 500 && error.status < 600)`;
an absent status (e.g. `TypeError`, `SyntaxError`) is never retriable. -/
def isRetriable (e : GError) : Bool :=
  match e.status with
  | some s => s == 429 || (500 ≤ s && s < 600)
  | none => false

/-- The sleep actually performed before a retry of a transport error:
exponential backoff `1000 * 2^attempt`, except that a 429 carrying a
machine-readable `RetryInfo` delay uses that delay (in ms) instead. -/
def actualDelay (e : GError) (attempt : Nat) : Nat :=
  match e.status, e.retryDelaySeconds with
  | some 429, some s => s * 1000
  | _, _ => 1000 * 2 ^ attempt

/-- The `throw lastError` after the loop when no attempt ran (`lastError`
still `undefined`); unreachable for `maxRetries ≥ 1`. -/
def jsUndefinedError : GError := ⟨none, none, "undefined"⟩

/-- The retry loop of `auditWithGemini`: one step per attempt, with
`fuel = maxRetries - attempt` remaining iterations.  Returns the result
together with the list of backoff sleeps (in ms) performed, in order.
* a parsed response runs `validateExtraction`; a throw from it (claim C10)
  is caught, has no `status`, is not retriable, and is rethrown;
* a JSON-parse failure on a non-final attempt sets `lastError` to the
  wrapped parse error, sleeps `1000 * 2^attempt`, and continues; on the
  final attempt the raw parse error is rethrown inside the `try`, caught,
  found non-retriable, and rethrown;
* a transport error is rethrown if non-retriable or on the final attempt,
  otherwise the loop sleeps `actualDelay` and continues. -/
def auditLoop (ev : ExpectedValues) (validPlacas : List String)
    (replies : Nat → OracleReply) (maxRetries : Nat) :
    Nat → Nat → Option GError → Except GError GeminiOutcome × List Nat
  | 0, _attempt, lastError => (.error (lastError.getD jsUndefinedError), [])
  | fuel + 1, attempt, _lastError =>
    match replies attempt with
    | .valid er =>
      match validateExtraction er ev validPlacas with
      | .ok v => (.ok (.extracted er v), [])
      | .error e => (.error e, [])
    | .malformed parseMsg =>
      if attempt < maxRetries - 1 then
        let rest := auditLoop ev validPlacas replies maxRetries fuel (attempt + 1)
          (some ⟨none, none, "JSON parse error: " ++ parseMsg⟩)
        (rest.1, 1000 * 2 ^ attempt :: rest.2)
      else (.error ⟨none, none, parseMsg⟩, [])
    | .raised e =>
      if ¬ isRetriable e ∨ attempt = maxRetries - 1 then (.error e, [])
      else
        let rest := auditLoop ev validPlacas replies maxRetries fuel (attempt + 1) (some e)
        (rest.1, actualDelay e attempt :: rest.2)

/-- `auditWithGemini` from `gemini.js` (extraction-only variant): the
quality gate runs once, on the first attempt (= loop entry); if it reports
not readable the whole record short-circuits to manual review, a failed
gate call proceeds to extraction, and the retry loop then starts at
attempt 0 with `lastError` unset.  Image download/cleanup and the
`qualityScore` echo are I/O details outside the model. -/
def auditWithGemini (ev : ExpectedValues) (validPlacas : List String)
    (quality : QualityOutcome) (replies : Nat → OracleReply) (maxRetries : Nat) :
    Except GError GeminiOutcome × List Nat :=
  match quality with
  | .notReadable score reason => (.ok (.manualReview score reason), [])
  | _ => auditLoop ev validPlacas replies maxRetries maxRetries 0 none

/-! ## Blob store, processing ledger (`bucket.js`) and orchestration (`audit.js`) -/

/-- A persisted audit-result document, restricted to the fields the claims
inspect (`row_id`, `status`, `error`); the other echoed fields (timestamp,
comparisons, …) carry no control flow. -/
structure AuditResultDoc where
  row_id : String
  status : String
  errMsg : Option String
deriving DecidableEq, Repr

/-- Content of a stored JSON object. -/
inductive BlobContent where
  | doc (d : AuditResultDoc)
  | indexDoc (processed_ids : List String)
  | summary
deriving DecidableEq, Repr

/-- The bucket: an association list path ↦ content (first match wins, so a
write prepends after dropping the old entry), plus availability of the
bucket handle (`getBucket()` may return null).  Storage-level read/write
failures (caught and logged in the source) are outside the model: every
modeled operation succeeds. -/
structure Store where
  objects : List (String × BlobContent)
  bucketAvailable : Bool
deriving DecidableEq, Repr

/-- `fileExists` + `readJSON` combined: content at a path, if present. -/
def lookupObj (st : Store) (p : String) : Option BlobContent :=
  st.objects.lookup p

/-- `writeJSON`: overwrite the object at a path. -/
def writeJSON (st : Store) (p : String) (c : BlobContent) : Store :=
  { st with objects := (p, c) :: st.objects.filter (fun q => q.1 ≠ p) }

/-- GCS `getFiles({prefix})` name matching: byte-prefix of the object name. -/
def strStartsWith (s pre : String) : Bool :=
  pre.toList.isPrefixOf s.toList

/-- `listFiles(bucket, prefix)`: names of stored objects with the prefix. -/
def listFiles (st : Store) (pre : String) : List String :=
  (st.objects.map Prod.fst).filter (fun n => strStartsWith n pre)

/-- Ledger index path `audits/<date>/index.json`. -/
def indexPath (d : String) : String := "audits/" ++ d ++ "/index.json"

/-- Prefix `audits/<date>/processed/` enumerated by the slow path. -/
def processedDir (d : String) : String := "audits/" ++ d ++ "/processed/"

/-- Result path for a normally-audited record. -/
def processedPath (d id : String) : String := processedDir d ++ id ++ ".json"

/-- Result path for a manual-review record. -/
def manualReviewPath (d id : String) : String :=
  "audits/" ++ d ++ "/manual_review/" ++ id ++ ".json"

/-- Result path for a failed (error-status) record. -/
def failedPath (d id : String) : String :=
  "audits/" ++ d ++ "/failed/" ++ id ++ ".json"

/-- `path.basename(name, ".json")`: the segment after the last `/`, with a
trailing `.json` stripped. -/
def basenameJson (name : String) : String :=
  let base := (splitOnChar '/' name).getLastD name
  if (".json").toList.isSuffixOf base.toList then base.dropRight 5 else base

/-- `updateProcessedIndex`: write the full index document. -/
def updateProcessedIndex (st : Store) (d : String) (ids : List String) : Store :=
  writeJSON st (indexPath d) (.indexDoc ids)

/-- `getProcessedRowIds`: fast path reads `index.json` (any unreadable or
shapeless content falls through); the slow path lists the `processed/`
prefix only, maps basenames, and materializes the index when non-empty.
Returns the ids and the possibly-updated store. -/
def getProcessedRowIds (st : Store) (d : String) : List String × Store :=
  match lookupObj st (indexPath d) with
  | some (.indexDoc ids) => (ids, st)
  | _ =>
    let ids := (listFiles st (processedDir d)).map basenameJson
    if ids.isEmpty then (ids, st)
    else (ids, updateProcessedIndex st d ids)

/-- `addToProcessedIndex`: read the current index (or empty), append the id
if absent, write back. -/
def addToProcessedIndex (st : Store) (d : String) (rowId : String) : Store :=
  let ids :=
    match lookupObj st (indexPath d) with
    | some (.indexDoc ids) => ids
    | _ => []
  if rowId ∈ ids then st
  else updateProcessedIndex st d (ids ++ [rowId])

/-- A tabular-source record; only `rowId` carries control flow here. -/
structure RowRecord where
  rowId : String
deriving DecidableEq, Repr

/-- `getUnprocessedRecords`: with no bucket, process everything; otherwise
filter out records whose id the ledger reports processed. -/
def getUnprocessedRecords (records : List RowRecord) (st : Store) (d : String) :
    List RowRecord × Store :=
  if st.bucketAvailable then
    let r := getProcessedRowIds st d
    (records.filter (fun rec => ¬ r.1.contains rec.rowId), r.2)
  else (records, st)

/-- What `await auditWithGemini(...)` did for one record, as observed by
`auditRecord`: returned a value or threw. -/
inductive CallOutcome where
  | returned (g : GeminiOutcome)
  | threw (e : GError)
deriving DecidableEq, Repr

/-- `auditRecord` from `audit.js`: on a manual-review result, persist under
`manual_review/` and add to the index; on a normal result, persist under
`processed/` and add to the index; on a throw, persist an error-status
document under `failed/` and deliberately skip the index.  The catch means
the function always returns a document — a throw never propagates. -/
def auditRecord (st : Store) (d : String) (r : RowRecord) (o : CallOutcome) :
    Store × AuditResultDoc :=
  match o with
  | .returned (.manualReview _score _reason) =>
    let doc : AuditResultDoc := ⟨r.rowId, "requiere_revision_manual", none⟩
    if st.bucketAvailable then
      (addToProcessedIndex (writeJSON st (manualReviewPath d r.rowId) (.doc doc)) d r.rowId, doc)
    else (st, doc)
  | .returned (.extracted _er v) =>
    let status :=
      if v.status = "" then (if v.aprobado then ("aprobado") else ("inconsistencias_encontradas"))
      else v.status
    let doc : AuditResultDoc := ⟨r.rowId, status, none⟩
    if st.bucketAvailable then
      (addToProcessedIndex (writeJSON st (processedPath d r.rowId) (.doc doc)) d r.rowId, doc)
    else (st, doc)
  | .threw e =>
    let doc : AuditResultDoc := ⟨r.rowId, "error", some e.tag⟩
    if st.bucketAvailable then
      (writeJSON st (failedPath d r.rowId) (.doc doc), doc)
    else (st, doc)

/-- The sequential per-record loop of `auditAllRecords`. -/
def auditBatchGo (d : String) (outcomes : RowRecord → CallOutcome) :
    Store → List RowRecord → Store × List AuditResultDoc
  | st, [] => (st, [])
  | st, r :: rs =>
    let first := auditRecord st d r (outcomes r)
    let rest := auditBatchGo d outcomes first.1 rs
    (rest.1, first.2 :: rest.2)

/-- `auditAllRecords`: compute the unprocessed subset, audit each record in
order (the per-record catch keeps the batch alive), and persist a failure
summary when any record errored.  The oracle call is abstracted by
`outcomes`. -/
def auditAllRecords (st : Store) (d : String) (records : List RowRecord)
    (outcomes : RowRecord → CallOutcome) : Store × List AuditResultDoc :=
  let unp := getUnprocessedRecords records st d
  let run := auditBatchGo d outcomes unp.2 unp.1
  let failed := run.2.filter (fun x => x.status == "error")
  if run.1.bucketAvailable ∧ ¬ failed.isEmpty then
    (writeJSON run.1 ("audits/" ++ d ++ "/failure_summary.json") .summary, run.2)
  else (run.1, run.2)

/-- The processed-id set recorded in the ledger index document (empty when
the index is absent or unreadable). -/
def indexIds (st : Store) (d : String) : List String :=
  match lookupObj st (indexPath d) with
  | some (.indexDoc ids) => ids
  | _ => []

/-- Append-if-absent, the index update `addToProcessedIndex` performs. -/
def addIdIfAbsent (ids : List String) (id : String) : List String :=
  if id ∈ ids then ids else ids ++ [id]

/-- Status projection of a `validateExtraction` result. -/
def valStatus (x : Except GError ValidationResult) : Option String :=
  match x with
  | .ok r => some r.status
  | .error _ => none

/-! ## Helper lemmas about the store model -/

theorem contains_iff_mem (l : List String) (a : String) : l.contains a ↔ a ∈ l := by
  simp [List.contains, List.elem_iff]

theorem lookup_filter_ne {β : Type} (l : List (String × β)) (q p : String) (h : q ≠ p) :
    (l.filter (fun x => x.1 ≠ p)).lookup q = l.lookup q := by
  induction l with
  | nil => rfl
  | cons kv tl ih =>
    obtain ⟨k, v⟩ := kv
    by_cases hk : k = p
    · subst hk
      rw [List.filter_cons_of_neg (by simp), ih]
      simp [List.lookup, beq_eq_false_iff_ne.mpr h]
    · rw [List.filter_cons_of_pos (by simp [hk])]
      cases hqk : q == k
      · simp only [List.lookup, hqk]
        exact ih
      · simp only [List.lookup, hqk]

theorem lookupObj_writeJSON_self (st : Store) (p : String) (c : BlobContent) :
    lookupObj (writeJSON st p c) p = some c := by
  simp [lookupObj, writeJSON, List.lookup]

theorem lookupObj_writeJSON_ne (st : Store) (p q : String) (c : BlobContent) (h : q ≠ p) :
    lookupObj (writeJSON st p c) q = lookupObj st q := by
  simp only [lookupObj, writeJSON, List.lookup, beq_eq_false_iff_ne.mpr h]
  exact lookup_filter_ne st.objects q p h

theorem indexPath_length (d : String) : (indexPath d).length = 18 + d.length := by
  simp [indexPath, String.length_append]
  rw [show ("audits/").length = 7 from rfl, show ("/index.json").length = 11 from rfl]
  omega

theorem failedPath_length (d id : String) :
    (failedPath d id).length = 20 + d.length + id.length := by
  simp [failedPath, String.length_append]
  rw [show ("audits/").length = 7 from rfl, show ("/failed/").length = 8 from rfl,
      show (".json").length = 5 from rfl]
  omega

theorem processedPath_length (d id : String) :
    (processedPath d id).length = 23 + d.length + id.length := by
  simp [processedPath, processedDir, String.length_append]
  rw [show ("audits/").length = 7 from rfl, show ("/processed/").length = 11 from rfl,
      show (".json").length = 5 from rfl]
  omega

theorem manualReviewPath_length (d id : String) :
    (manualReviewPath d id).length = 27 + d.length + id.length := by
  simp [manualReviewPath, String.length_append]
  rw [show ("audits/").length = 7 from rfl, show ("/manual_review/").length = 15 from rfl,
      show (".json").length = 5 from rfl]
  omega

theorem indexPath_ne_failedPath (d id : String) : indexPath d ≠ failedPath d id := by
  intro h
  have := congrArg String.length h
  rw [indexPath_length, failedPath_length] at this
  omega

theorem indexPath_ne_processedPath (d id : String) : indexPath d ≠ processedPath d id := by
  intro h
  have := congrArg String.length h
  rw [indexPath_length, processedPath_length] at this
  omega

theorem indexPath_ne_manualReviewPath (d id : String) :
    indexPath d ≠ manualReviewPath d id := by
  intro h
  have := congrArg String.length h
  rw [indexPath_length, manualReviewPath_length] at this
  omega

theorem processedPath_ne_manualReviewPath (d id : String) :
    processedPath d id ≠ manualReviewPath d id := by
  intro h
  have := congrArg String.length h
  rw [processedPath_length, manualReviewPath_length] at this
  omega

theorem isPrefixOf_append_cancel (l l1 l2 : List Char) :
    (l ++ l1).isPrefixOf (l ++ l2) = l1.isPrefixOf l2 := by
  induction l with
  | nil => rfl
  | cons c cs ih => simp [List.isPrefixOf, ih]

theorem strStartsWith_failedPath_processedDir (d id : String) :
    strStartsWith (failedPath d id) (processedDir d) = false := by
  rw [strStartsWith, processedDir, failedPath]
  show (("audits/" ++ d ++ "/processed/").data).isPrefixOf
    (("audits/" ++ d ++ "/failed/" ++ id ++ ".json").data) = false
  simp only [String.data_append, List.append_assoc]
  rw [isPrefixOf_append_cancel, isPrefixOf_append_cancel]
  rfl

theorem filter_map_filter_ne (l : List (String × BlobContent)) (p pre : String)
    (h : strStartsWith p pre = false) :
    ((l.filter (fun x => x.1 ≠ p)).map Prod.fst).filter (fun n => strStartsWith n pre) =
      (l.map Prod.fst).filter (fun n => strStartsWith n pre) := by
  induction l with
  | nil => rfl
  | cons kv tl ih =>
    obtain ⟨k, v⟩ := kv
    by_cases hk : k = p
    · subst hk
      rw [List.filter_cons_of_neg (by simp), ih, List.map_cons,
        List.filter_cons_of_neg (by simp [h])]
    · rw [List.filter_cons_of_pos (by simp [hk]), List.map_cons, List.map_cons,
        List.filter_cons, List.filter_cons, ih]

theorem listFiles_writeJSON_of_not_under (st : Store) (p pre : String) (c : BlobContent)
    (h : strStartsWith p pre = false) :
    listFiles (writeJSON st p c) pre = listFiles st pre := by
  simp only [listFiles, writeJSON, List.map_cons]
  rw [List.filter_cons_of_neg (by simp [h])]
  exact filter_map_filter_ne st.objects p pre h

theorem getProcessedRowIds_fst_write_failed (st : Store) (d id : String) (c : BlobContent) :
    (getProcessedRowIds (writeJSON st (failedPath d id) c) d).1 =
      (getProcessedRowIds st d).1 := by
  have hl : lookupObj (writeJSON st (failedPath d id) c) (indexPath d) =
      lookupObj st (indexPath d) :=
    lookupObj_writeJSON_ne st (failedPath d id) (indexPath d) c (indexPath_ne_failedPath d id)
  have hf : listFiles (writeJSON st (failedPath d id) c) (processedDir d) =
      listFiles st (processedDir d) :=
    listFiles_writeJSON_of_not_under st (failedPath d id) (processedDir d) c
      (strStartsWith_failedPath_processedDir d id)
  unfold getProcessedRowIds
  rw [hl, hf]
  cases lookupObj st (indexPath d) with
  | none =>
    dsimp only
    split_ifs <;> rfl
  | some bc =>
    cases bc <;> dsimp only <;> split_ifs <;> rfl

/-! ## Helper lemmas about the validator -/

theorem validateExtraction_some_placa (er : ExtractionResult) (ev : ExpectedValues)
    (vp : List String) (p : String) (hp : ev.placa = some p) :
    validateExtraction er ev vp =
      .ok (decideStatus er
        ⟨compareNumeroVale er.numeroVale.valor ev.numeroVale,
         comparePlacaStr er.placa.valor p,
         compareM3 er.m3.valor ev.m3,
         compareDates er.fecha.valor ev.fecha⟩) := by
  unfold validateExtraction comparePlaca
  rw [hp]
  by_cases h : er.placa.valor = "" <;> simp [h, comparePlacaStr]

theorem lowConfidenceFields_eq_nil_iff (er : ExtractionResult) :
    lowConfidenceFields er = [] ↔
      ¬ er.numeroVale.confianza < CONFIDENCE_THRESHOLD ∧
      ¬ er.placa.confianza < CONFIDENCE_THRESHOLD ∧
      ¬ er.m3.confianza < CONFIDENCE_THRESHOLD ∧
      ¬ er.fecha.confianza < CONFIDENCE_THRESHOLD := by
  unfold lowConfidenceFields
  split_ifs <;> simp [*]

theorem decideStatus_empty (er : ExtractionResult) (comps : Comparaciones)
    (he : er.numeroVale.valor = "" ∨ er.placa.valor = "" ∨ er.m3.valor = "" ∨
      er.fecha.valor = "") :
    decideStatus er comps =
      ⟨comps, false, "requiere_revision_manual",
        some ("Uno o más campos no pudieron ser extraídos")⟩ := by
  unfold decideStatus
  rw [if_pos he]

theorem decideStatus_approved (er : ExtractionResult) (comps : Comparaciones)
    (hne : ¬ (er.numeroVale.valor = "" ∨ er.placa.valor = "" ∨ er.m3.valor = "" ∨
      er.fecha.valor = ""))
    (hm : (comps.numeroVale.coincide && comps.placa.coincide && comps.m3.coincide &&
      comps.fecha.coincide) = true)
    (hl : lowConfidenceFields er = []) :
    decideStatus er comps = ⟨comps, true, "aprobado", none⟩ := by
  unfold decideStatus
  rw [if_neg hne, if_pos ⟨hm, hl⟩]

theorem decideStatus_allMatch_low (er : ExtractionResult) (comps : Comparaciones)
    (hne : ¬ (er.numeroVale.valor = "" ∨ er.placa.valor = "" ∨ er.m3.valor = "" ∨
      er.fecha.valor = ""))
    (hm : (comps.numeroVale.coincide && comps.placa.coincide && comps.m3.coincide &&
      comps.fecha.coincide) = true)
    (hl : lowConfidenceFields er ≠ []) :
    decideStatus er comps =
      ⟨comps, false, "requiere_revision_manual",
        some ("Confianza baja en: " ++ String.intercalate (", ") (lowConfidenceFields er))⟩ := by
  unfold decideStatus
  rw [if_neg hne, if_neg (fun hc => hl hc.2), if_pos ⟨hm, hl⟩]

theorem decideStatus_mismatch_low (er : ExtractionResult) (comps : Comparaciones)
    (hne : ¬ (er.numeroVale.valor = "" ∨ er.placa.valor = "" ∨ er.m3.valor = "" ∨
      er.fecha.valor = ""))
    (hm : (comps.numeroVale.coincide && comps.placa.coincide && comps.m3.coincide &&
      comps.fecha.coincide) = false)
    (hl : lowConfidenceFields er ≠ []) :
    decideStatus er comps =
      ⟨comps, false, "requiere_revision_manual",
        some ("Inconsistencias con confianza baja en: " ++
          String.intercalate (", ") (lowConfidenceFields er))⟩ := by
  unfold decideStatus
  rw [if_neg hne, if_neg (fun hc => by simp [hm] at hc), if_neg (fun hc => by simp [hm] at hc),
    if_pos ⟨by simp [hm], hl⟩]

theorem decideStatus_mismatch_confident (er : ExtractionResult) (comps : Comparaciones)
    (hne : ¬ (er.numeroVale.valor = "" ∨ er.placa.valor = "" ∨ er.m3.valor = "" ∨
      er.fecha.valor = ""))
    (hm : (comps.numeroVale.coincide && comps.placa.coincide && comps.m3.coincide &&
      comps.fecha.coincide) = false)
    (hl : lowConfidenceFields er = []) :
    decideStatus er comps = ⟨comps, false, "inconsistencias_encontradas", none⟩ := by
  unfold decideStatus
  rw [if_neg hne, if_neg (fun hc => by simp [hm] at hc), if_neg (fun hc => hc.2 hl),
    if_neg (fun hc => hc.2 hl)]

/-! ## Claims C1–C3: the decision policy of `validateExtraction` -/

/-- Concrete input refuting claim C1: the only mismatched field (`placa`)
has confidence 0.9 ≥ 0.7, but a *matched* field (`numeroVale`) has
confidence 0.5 < 0.7. -/
def c1Er : ExtractionResult :=
  ⟨⟨"24697", mkRat 1 2⟩, ⟨"ABC123", mkRat 9 10⟩, ⟨"16", 1⟩, ⟨"10/12/2025", 1⟩⟩

/-- Expected values paired with `c1Er`. -/
def c1Ev : ExpectedValues := ⟨"24697", some ("XYZ789"), "16", "10/12/2025"⟩

/-- C1 (counterexample): on an extraction where not all fields match but no
*mismatched* field has confidence below 0.7, the claim predicts status
`inconsistencias_encontradas`; the code checks low confidence over *all*
fields and returns `requiere_revision_manual` because the matched
`numeroVale` has confidence 0.5. -/
theorem C1_counterexample :
    ((compareNumeroVale c1Er.numeroVale.valor c1Ev.numeroVale).coincide = true ∧
     (comparePlacaStr c1Er.placa.valor ("XYZ789")).coincide = false ∧
     (compareM3 c1Er.m3.valor c1Ev.m3).coincide = true ∧
     (compareDates c1Er.fecha.valor c1Ev.fecha).coincide = true ∧
     CONFIDENCE_THRESHOLD ≤ c1Er.placa.confianza) ∧
    valStatus (validateExtraction c1Er c1Ev []) = some ("requiere_revision_manual") ∧
    valStatus (validateExtraction c1Er c1Ev []) ≠ some ("inconsistencias_encontradas") := by
  refine ⟨⟨by decide, by decide, by decide, by decide,
    by decide⟩, by decide, by decide⟩

/-- C1 (amended): for a non-empty extraction with a well-typed expected
placa where not all four comparisons match, the code routes on low
confidence over *any* of the four fields (not only mismatched ones): if any
field's confidence is below 0.7 the result is `requiere_revision_manual`
with approval false, and if every field's confidence is at least 0.7 the
result is `inconsistencias_encontradas` with approval false and a null
manual-review reason. -/
theorem C1_mismatch_routing (er : ExtractionResult) (ev : ExpectedValues)
    (vp : List String) (p : String) (hp : ev.placa = some p)
    (h1 : er.numeroVale.valor ≠ "") (h2 : er.placa.valor ≠ "")
    (h3 : er.m3.valor ≠ "") (h4 : er.fecha.valor ≠ "")
    (hnm : ((compareNumeroVale er.numeroVale.valor ev.numeroVale).coincide &&
            (comparePlacaStr er.placa.valor p).coincide &&
            (compareM3 er.m3.valor ev.m3).coincide &&
            (compareDates er.fecha.valor ev.fecha).coincide) = false) :
    ((er.numeroVale.confianza < CONFIDENCE_THRESHOLD ∨
      er.placa.confianza < CONFIDENCE_THRESHOLD ∨
      er.m3.confianza < CONFIDENCE_THRESHOLD ∨
      er.fecha.confianza < CONFIDENCE_THRESHOLD) →
      ∃ r, validateExtraction er ev vp = .ok r ∧ r.aprobado = false ∧
        r.status = "requiere_revision_manual") ∧
    (CONFIDENCE_THRESHOLD ≤ er.numeroVale.confianza ∧
     CONFIDENCE_THRESHOLD ≤ er.placa.confianza ∧
     CONFIDENCE_THRESHOLD ≤ er.m3.confianza ∧
     CONFIDENCE_THRESHOLD ≤ er.fecha.confianza →
      ∃ comps, validateExtraction er ev vp =
        .ok ⟨comps, false, "inconsistencias_encontradas", none⟩) := by
  have hne : ¬ (er.numeroVale.valor = "" ∨ er.placa.valor = "" ∨ er.m3.valor = "" ∨
      er.fecha.valor = "") := by
    rintro (h | h | h | h) <;> [exact h1 h; exact h2 h; exact h3 h; exact h4 h]
  have hval := validateExtraction_some_placa er ev vp p hp
  constructor
  · intro hc
    have hl : lowConfidenceFields er ≠ [] := by
      intro hnil
      have hiff := (lowConfidenceFields_eq_nil_iff er).mp hnil
      rcases hc with h | h | h | h
      · exact hiff.1 h
      · exact hiff.2.1 h
      · exact hiff.2.2.1 h
      · exact hiff.2.2.2 h
    refine ⟨_, hval, ?_, ?_⟩
    · rw [decideStatus_mismatch_low er _ hne hnm hl]
    · rw [decideStatus_mismatch_low er _ hne hnm hl]
  · intro hc
    have hl : lowConfidenceFields er = [] :=
      (lowConfidenceFields_eq_nil_iff er).mpr
        ⟨not_lt.mpr hc.1, not_lt.mpr hc.2.1, not_lt.mpr hc.2.2.1, not_lt.mpr hc.2.2.2⟩
    exact ⟨_, by rw [hval, decideStatus_mismatch_confident er _ hne hnm hl]⟩

/-- Witness input for C1 (amended): a confident mismatch on `numeroVale`. -/
def c1bEr : ExtractionResult :=
  ⟨⟨"11111", 1⟩, ⟨"ABC123", 1⟩, ⟨"16", 1⟩, ⟨"10/12/2025", 1⟩⟩

/-- Expected values paired with `c1bEr`. -/
def c1bEv : ExpectedValues := ⟨"22222", some ("ABC123"), "16", "10/12/2025"⟩

/-- C1 (witness): the amended theorem applied at a concrete confident
mismatch, yielding `inconsistencias_encontradas`. -/
theorem C1_mismatch_routing_witness :
    ∃ comps, validateExtraction c1bEr c1bEv [] =
      .ok ⟨comps, false, "inconsistencias_encontradas", none⟩ :=
  (C1_mismatch_routing c1bEr c1bEv [] ("ABC123") rfl (by decide) (by decide) (by decide)
    (by decide) rfl).2 (by decide)

/-- C2: any empty extracted field short-circuits `validateExtraction` to
`requiere_revision_manual` with approval false and the fixed reason, for
every combination of match results and confidences on the other fields.
The hypothesis on `ev.placa` keeps the run inside the non-throwing
interface (cf. C10): the expected placa is a string, or the extracted
placa is itself the empty one. -/
theorem C2_empty_extraction_short_circuit (er : ExtractionResult) (ev : ExpectedValues)
    (vp : List String)
    (hp : ev.placa ≠ none ∨ er.placa.valor = "")
    (he : er.numeroVale.valor = "" ∨ er.placa.valor = "" ∨ er.m3.valor = "" ∨
      er.fecha.valor = "") :
    ∃ comps, validateExtraction er ev vp =
      .ok ⟨comps, false, "requiere_revision_manual",
        some ("Uno o más campos no pudieron ser extraídos")⟩ := by
  rcases hp with hp | hp
  · obtain ⟨p, hp'⟩ := Option.ne_none_iff_exists'.mp hp
    rw [validateExtraction_some_placa er ev vp p hp']
    exact ⟨_, by rw [decideStatus_empty er _ he]⟩
  · cases hev : ev.placa with
    | some p =>
      rw [validateExtraction_some_placa er ev vp p hev]
      exact ⟨_, by rw [decideStatus_empty er _ he]⟩
    | none =>
      unfold validateExtraction comparePlaca
      rw [hev, if_pos hp]
      dsimp only
      exact ⟨_, by rw [decideStatus_empty er _ he]⟩

/-- Witness input for C2: `numeroVale` extracted empty, everything else
matching with high confidence. -/
def c2Er : ExtractionResult :=
  ⟨⟨"", 0⟩, ⟨"ABC123", mkRat 9 10⟩, ⟨"16", 1⟩, ⟨"10/12/2025", 1⟩⟩

/-- Expected values paired with `c2Er`. -/
def c2Ev : ExpectedValues := ⟨"24697", some ("ABC123"), "16", "10/12/2025"⟩

/-- C2 (witness): the empty-field short-circuit at a concrete input. -/
theorem C2_empty_extraction_short_circuit_witness :
    ∃ comps, validateExtraction c2Er c2Ev [] =
      .ok ⟨comps, false, "requiere_revision_manual",
        some ("Uno o más campos no pudieron ser extraídos")⟩ :=
  C2_empty_extraction_short_circuit c2Er c2Ev [] (Or.inl (by decide)) (Or.inl rfl)

/-- C3: for a non-empty extraction with a well-typed expected placa where
all four comparisons match: every confidence at least 0.7 gives `aprobado`
with approval true; any confidence below 0.7 gives
`requiere_revision_manual` with approval false and a reason listing the
low-confidence fields with their percentages. -/
theorem C3_allMatch_confidence_gate (er : ExtractionResult) (ev : ExpectedValues)
    (vp : List String) (p : String) (hp : ev.placa = some p)
    (h1 : er.numeroVale.valor ≠ "") (h2 : er.placa.valor ≠ "")
    (h3 : er.m3.valor ≠ "") (h4 : er.fecha.valor ≠ "")
    (hm : (compareNumeroVale er.numeroVale.valor ev.numeroVale).coincide = true ∧
          (comparePlacaStr er.placa.valor p).coincide = true ∧
          (compareM3 er.m3.valor ev.m3).coincide = true ∧
          (compareDates er.fecha.valor ev.fecha).coincide = true) :
    (CONFIDENCE_THRESHOLD ≤ er.numeroVale.confianza ∧
     CONFIDENCE_THRESHOLD ≤ er.placa.confianza ∧
     CONFIDENCE_THRESHOLD ≤ er.m3.confianza ∧
     CONFIDENCE_THRESHOLD ≤ er.fecha.confianza →
      ∃ comps, validateExtraction er ev vp = .ok ⟨comps, true, "aprobado", none⟩) ∧
    ((er.numeroVale.confianza < CONFIDENCE_THRESHOLD ∨
      er.placa.confianza < CONFIDENCE_THRESHOLD ∨
      er.m3.confianza < CONFIDENCE_THRESHOLD ∨
      er.fecha.confianza < CONFIDENCE_THRESHOLD) →
      ∃ comps, validateExtraction er ev vp =
        .ok ⟨comps, false, "requiere_revision_manual",
          some ("Confianza baja en: " ++
            String.intercalate (", ") (lowConfidenceFields er))⟩) := by
  have hne : ¬ (er.numeroVale.valor = "" ∨ er.placa.valor = "" ∨ er.m3.valor = "" ∨
      er.fecha.valor = "") := by
    rintro (h | h | h | h) <;> [exact h1 h; exact h2 h; exact h3 h; exact h4 h]
  have hval := validateExtraction_some_placa er ev vp p hp
  have hmb : ((compareNumeroVale er.numeroVale.valor ev.numeroVale).coincide &&
      (comparePlacaStr er.placa.valor p).coincide &&
      (compareM3 er.m3.valor ev.m3).coincide &&
      (compareDates er.fecha.valor ev.fecha).coincide) = true := by
    rw [hm.1, hm.2.1, hm.2.2.1, hm.2.2.2]
    rfl
  constructor
  · intro hc
    have hl : lowConfidenceFields er = [] :=
      (lowConfidenceFields_eq_nil_iff er).mpr
        ⟨not_lt.mpr hc.1, not_lt.mpr hc.2.1, not_lt.mpr hc.2.2.1, not_lt.mpr hc.2.2.2⟩
    exact ⟨_, by rw [hval, decideStatus_approved er _ hne hmb hl]⟩
  · intro hc
    have hl : lowConfidenceFields er ≠ [] := by
      intro hnil
      have hiff := (lowConfidenceFields_eq_nil_iff er).mp hnil
      rcases hc with h | h | h | h
      · exact hiff.1 h
      · exact hiff.2.1 h
      · exact hiff.2.2.1 h
      · exact hiff.2.2.2 h
    exact ⟨_, by rw [hval, decideStatus_allMatch_low er _ hne hmb hl]⟩

/-- Witness input for C3: all four fields match but `numeroVale` was read
with confidence 0.5. -/
def c3Er : ExtractionResult :=
  ⟨⟨"24697", mkRat 1 2⟩, ⟨"abc123", 1⟩, ⟨"16.00", mkRat 95 100⟩, ⟨"10/12/2025", mkRat 8 10⟩⟩

/-- Expected values paired with `c3Er`. -/
def c3Ev : ExpectedValues := ⟨"24697", some ("ABC123"), "16", "10/12/2025"⟩

/-- C3 (witness): all-match with one confidence 0.5 routes to
`requiere_revision_manual` (not `aprobado`), with the 50% label. -/
theorem C3_allMatch_confidence_gate_witness :
    ∃ comps, validateExtraction c3Er c3Ev [] =
      .ok ⟨comps, false, "requiere_revision_manual",
        some ("Confianza baja en: " ++
          String.intercalate (", ") (lowConfidenceFields c3Er))⟩ :=
  (C3_allMatch_confidence_gate c3Er c3Ev [] ("ABC123") rfl (by decide) (by decide) (by decide)
    (by decide) ⟨by decide, by decide, by decide, by decide⟩).2 (Or.inl (by decide))

/-! ## Claim C4: the date comparator -/

/-- Two-digit year components go through the Date constructor's
`MakeFullYear` offset: both sides of 27/02/00 vs 01/03/00 land in 1900,
which is not a leap year, so the difference is two days and within
tolerance. -/
theorem compareDates_twoDigitYear_1900 :
    compareDates ("27/02/00") ("01/03/00") =
      ⟨true, "Diferencia de 2 día(s), dentro de tolerancia"⟩ := by decide

/-- A two-digit year is 1900-based while a four-digit one is absolute:
16/12/25 is 1925-12-16, which is 36525 days before 2025-12-16. -/
theorem compareDates_twoDigitYear_vs_fourDigit :
    compareDates ("16/12/25") ("16/12/2025") =
      ⟨false, "Diferencia de 36525 días, fuera de tolerancia (máximo 2 días)"⟩ := by decide

/-- Year 100 is taken literally (no offset): 31/12/99 is 1999-12-31 and
02/01/100 is 0100-01-02, far outside tolerance. -/
theorem compareDates_year100_literal :
    (compareDates ("31/12/99") ("02/01/100")).coincide = false := by decide

/-- C4: `compareDates` parses both sides as `DD/MM/YYYY` and compares the
absolute day difference `d`: `d = 0` matches with an empty note, `0 < d ≤ 2`
matches with the within-tolerance note, `d > 2` does not match and notes
that the difference exceeds tolerance; an empty date on either side gives
no match with the fixed note, an unparseable one no match with a non-empty
note; in particular extracted "12/12/2025" vs expected "10/12/2025" matches
and "13/12/2025" does not. -/
theorem C4_date_tolerance :
    (∀ s1 s2 t1 t2, s1 ≠ "" → s2 ≠ "" → parseJsDate s1 = some t1 → parseJsDate s2 = some t2 →
      ((t1 - t2).natAbs = 0 → compareDates s1 s2 = ⟨true, ""⟩) ∧
      (0 < (t1 - t2).natAbs → (t1 - t2).natAbs ≤ 2 →
        compareDates s1 s2 = ⟨true, "Diferencia de " ++ toString (t1 - t2).natAbs ++
          " día(s), dentro de tolerancia"⟩) ∧
      (2 < (t1 - t2).natAbs →
        compareDates s1 s2 = ⟨false, "Diferencia de " ++ toString (t1 - t2).natAbs ++
          " días, fuera de tolerancia (máximo 2 días)"⟩)) ∧
    (∀ s1 s2, s1 = "" ∨ s2 = "" → compareDates s1 s2 = ⟨false, "Fecha vacía o inválida"⟩) ∧
    (∀ s1 s2, s1 ≠ "" → s2 ≠ "" → parseJsDate s1 = none ∨ parseJsDate s2 = none →
      (compareDates s1 s2).coincide = false ∧ (compareDates s1 s2).observacion ≠ "") ∧
    compareDates ("12/12/2025") "10/12/2025" =
      ⟨true, "Diferencia de 2 día(s), dentro de tolerancia"⟩ ∧
    (compareDates ("13/12/2025") "10/12/2025").coincide = false := by
  refine ⟨?_, ?_, ?_, by decide, by decide⟩
  · intro s1 s2 t1 t2 h1 h2 hp1 hp2
    have hcond : ¬ (s1 = "" ∨ s2 = "") := by
      rintro (h | h) <;> [exact h1 h; exact h2 h]
    refine ⟨?_, ?_, ?_⟩
    · intro hd
      rw [compareDates, if_neg hcond, hp1, hp2]
      dsimp only
      rw [if_pos hd]
    · intro hd0 hd2
      rw [compareDates, if_neg hcond, hp1, hp2]
      dsimp only
      rw [if_neg (by omega), if_pos hd2]
    · intro hd
      rw [compareDates, if_neg hcond, hp1, hp2]
      dsimp only
      rw [if_neg (by omega), if_neg (by omega)]
  · intro s1 s2 h
    rw [compareDates, if_pos h]
  · intro s1 s2 h1 h2 hp
    have hcond : ¬ (s1 = "" ∨ s2 = "") := by
      rintro (h | h) <;> [exact h1 h; exact h2 h]
    rcases hp with hp | hp
    · rw [compareDates, if_neg hcond, hp]
      cases parseJsDate s2 <;> dsimp only <;> exact ⟨rfl, by decide⟩
    · rw [compareDates, if_neg hcond, hp]
      cases parseJsDate s1 <;> dsimp only <;> exact ⟨rfl, by decide⟩

/-- C4 (witness): the empty-date branch of the theorem at a concrete
input. -/
theorem C4_date_tolerance_witness :
    compareDates ("") "01/01/2025" = ⟨false, "Fecha vacía o inválida"⟩ :=
  C4_date_tolerance.2.1 ("") "01/01/2025" (Or.inl rfl)

/-! ## Claims C5 and C6: the retry loop -/

/-- C5: a JSON-parse failure on a non-final attempt retries after a backoff
sleep of `1000 * 2^attempt` ms instead of failing; malformed JSON on the
first two attempts and a valid payload on the third (with `maxRetries = 4`)
succeeds after exactly two retries with backoff sleeps 1000 ms and 2000 ms;
a parse failure on the final attempt surfaces the parse error. -/
theorem C5_parse_retry :
    (∀ (ev : ExpectedValues) (vp : List String) (replies : Nat → OracleReply)
      (maxRetries fuel attempt : Nat) (lastError : Option GError) (pm : String),
      replies attempt = .malformed pm → attempt < maxRetries - 1 →
      auditLoop ev vp replies maxRetries (fuel + 1) attempt lastError =
        ((auditLoop ev vp replies maxRetries fuel (attempt + 1)
            (some ⟨none, none, "JSON parse error: " ++ pm⟩)).1,
         1000 * 2 ^ attempt ::
          (auditLoop ev vp replies maxRetries fuel (attempt + 1)
            (some ⟨none, none, "JSON parse error: " ++ pm⟩)).2)) ∧
    (∀ (ev : ExpectedValues) (vp : List String) (q : QualityOutcome)
      (replies : Nat → OracleReply) (er : ExtractionResult) (v : ValidationResult)
      (m0 m1 : String), q = .readable ∨ q = .gateCheckFailed →
      replies 0 = .malformed m0 → replies 1 = .malformed m1 → replies 2 = .valid er →
      validateExtraction er ev vp = .ok v →
      auditWithGemini ev vp q replies 4 = (.ok (.extracted er v), [1000, 2000])) ∧
    (∀ (ev : ExpectedValues) (vp : List String) (replies : Nat → OracleReply)
      (maxRetries fuel attempt : Nat) (lastError : Option GError) (pm : String),
      replies attempt = .malformed pm → ¬ attempt < maxRetries - 1 →
      auditLoop ev vp replies maxRetries (fuel + 1) attempt lastError =
        (.error ⟨none, none, pm⟩, [])) := by
  refine ⟨?_, ?_, ?_⟩
  · intro ev vp replies maxRetries fuel attempt lastError pm hrep hlt
    conv_lhs => rw [auditLoop]
    rw [hrep]
    dsimp only
    rw [if_pos hlt]
  · intro ev vp q replies er v m0 m1 hq h0 h1 h2 hval
    have hloop : auditLoop ev vp replies 4 4 0 none = (.ok (.extracted er v), [1000, 2000]) := by
      rw [auditLoop, h0]
      dsimp only
      rw [if_pos (by norm_num)]
      rw [auditLoop, h1]
      dsimp only
      rw [if_pos (by norm_num)]
      rw [auditLoop, h2]
      dsimp only
      rw [hval]
      dsimp only
      norm_num
    rcases hq with hq | hq <;> subst hq <;> exact hloop
  · intro ev vp replies maxRetries fuel attempt lastError pm hrep hlt
    conv_lhs => rw [auditLoop]
    rw [hrep]
    dsimp only
    rw [if_neg hlt]

/-- Witness oracle payload for C5: a fully matching, fully confident
extraction. -/
def w5Er : ExtractionResult :=
  ⟨⟨"24697", 1⟩, ⟨"ABC123", 1⟩, ⟨"16", 1⟩, ⟨"10/12/2025", 1⟩⟩

/-- Witness reference values for C5. -/
def w5Ev : ExpectedValues := ⟨"24697", some ("ABC123"), "16", "10/12/2025"⟩

/-- Validation result of the C5 witness extraction. -/
def w5Val : ValidationResult :=
  match validateExtraction w5Er w5Ev [] with
  | .ok v => v
  | .error _ => ⟨⟨⟨false, ""⟩, ⟨false, ""⟩, ⟨false, ""⟩, ⟨false, ""⟩⟩, false, "", none⟩

/-- Witness oracle behavior for C5: malformed JSON twice, then valid. -/
def w5Replies : Nat → OracleReply := fun n =>
  match n with
  | 0 => .malformed ("Unexpected token")
  | 1 => .malformed ("Unexpected token")
  | _ => .valid w5Er

/-- C5 (witness): the malformed-twice-then-valid scenario at concrete
inputs. -/
theorem C5_parse_retry_witness :
    auditWithGemini w5Ev [] .readable w5Replies 4 =
      (.ok (.extracted w5Er w5Val), [1000, 2000]) :=
  C5_parse_retry.2.1 w5Ev [] .readable w5Replies w5Er w5Val ("Unexpected token")
    "Unexpected token" (Or.inl rfl) rfl rfl rfl (by rfl)

/-- C6: a transport error that is neither 429 nor 5xx is rethrown at once
with no further attempt; a retriable error on a non-final attempt sleeps
`actualDelay` and continues; on the final attempt the error is rethrown;
four consecutive retriable errors with `maxRetries = 4` surface the last
error after three backoff sleeps; and a 429 carrying a `RetryInfo` delay of
`s` seconds sleeps `s * 1000` ms instead of the exponential backoff. -/
theorem C6_transport_error_policy :
    (∀ (ev : ExpectedValues) (vp : List String) (replies : Nat → OracleReply)
      (maxRetries fuel attempt : Nat) (lastError : Option GError) (e : GError),
      replies attempt = .raised e → isRetriable e = false →
      auditLoop ev vp replies maxRetries (fuel + 1) attempt lastError = (.error e, [])) ∧
    (∀ (ev : ExpectedValues) (vp : List String) (replies : Nat → OracleReply)
      (maxRetries fuel attempt : Nat) (lastError : Option GError) (e : GError),
      replies attempt = .raised e → isRetriable e = true → attempt ≠ maxRetries - 1 →
      auditLoop ev vp replies maxRetries (fuel + 1) attempt lastError =
        ((auditLoop ev vp replies maxRetries fuel (attempt + 1) (some e)).1,
         actualDelay e attempt ::
          (auditLoop ev vp replies maxRetries fuel (attempt + 1) (some e)).2)) ∧
    (∀ (ev : ExpectedValues) (vp : List String) (replies : Nat → OracleReply)
      (maxRetries fuel attempt : Nat) (lastError : Option GError) (e : GError),
      replies attempt = .raised e → attempt = maxRetries - 1 →
      auditLoop ev vp replies maxRetries (fuel + 1) attempt lastError = (.error e, [])) ∧
    (∀ (ev : ExpectedValues) (vp : List String) (es : Nat → GError)
      (replies : Nat → OracleReply),
      (∀ n, isRetriable (es n) = true) → (∀ n, replies n = .raised (es n)) →
      auditWithGemini ev vp .readable replies 4 =
        (.error (es 3), [actualDelay (es 0) 0, actualDelay (es 1) 1, actualDelay (es 2) 2])) ∧
    (∀ (e : GError) (attempt s : Nat), e.status = some 429 → e.retryDelaySeconds = some s →
      actualDelay e attempt = s * 1000) := by
  refine ⟨?_, ?_, ?_, ?_, ?_⟩
  · intro ev vp replies maxRetries fuel attempt lastError e hrep hret
    conv_lhs => rw [auditLoop]
    rw [hrep]
    dsimp only
    rw [if_pos (Or.inl (by simp [hret]))]
  · intro ev vp replies maxRetries fuel attempt lastError e hrep hret hne
    conv_lhs => rw [auditLoop]
    rw [hrep]
    dsimp only
    rw [if_neg (by simp [hret, hne])]
  · intro ev vp replies maxRetries fuel attempt lastError e hrep hfin
    conv_lhs => rw [auditLoop]
    rw [hrep]
    dsimp only
    rw [if_pos (Or.inr hfin)]
  · intro ev vp es replies hret hrep
    show auditLoop ev vp replies 4 4 0 none = _
    rw [auditLoop, hrep 0]
    dsimp only
    rw [if_neg (by simp [hret 0])]
    rw [auditLoop, hrep 1]
    dsimp only
    rw [if_neg (by simp [hret 1])]
    rw [auditLoop, hrep 2]
    dsimp only
    rw [if_neg (by simp [hret 2])]
    rw [auditLoop, hrep 3]
    dsimp only
    rw [if_pos (Or.inr rfl)]
  · intro e attempt s hs hd
    rw [actualDelay, hs, hd]

/-- Witness oracle behavior for C6: a non-retriable 404 on every call. -/
def w6Replies : Nat → OracleReply := fun _ => .raised ⟨some 404, none, "NotFound"⟩

/-- C6 (witness): the non-retriable error is rethrown immediately with no
backoff sleeps. -/
theorem C6_transport_error_policy_witness :
    auditLoop w5Ev [] w6Replies 4 4 0 none = (.error ⟨some 404, none, "NotFound"⟩, []) :=
  C6_transport_error_policy.1 w5Ev [] w6Replies 4 3 0 none ⟨some 404, none, "NotFound"⟩
    rfl (by decide)

/-! ## Claims C7–C9: ledger and orchestration -/

theorem writeJSON_bucketAvailable (st : Store) (p : String) (c : BlobContent) :
    (writeJSON st p c).bucketAvailable = st.bucketAvailable := rfl

theorem indexIds_writeJSON_ne (st : Store) (d p : String) (c : BlobContent)
    (h : indexPath d ≠ p) :
    indexIds (writeJSON st p c) d = indexIds st d := by
  rw [indexIds, indexIds, lookupObj_writeJSON_ne st p (indexPath d) c h]

theorem indexIds_addToProcessedIndex (st : Store) (d rowId : String) :
    indexIds (addToProcessedIndex st d rowId) d = addIdIfAbsent (indexIds st d) rowId := by
  rw [addToProcessedIndex, addIdIfAbsent]
  have hids : (match lookupObj st (indexPath d) with
      | some (.indexDoc ids) => ids
      | _ => []) = indexIds st d := rfl
  rw [hids]
  split_ifs with h
  · rfl
  · rw [updateProcessedIndex, indexIds, lookupObj_writeJSON_self]

theorem lookupObj_addToProcessedIndex_ne (st : Store) (d rowId p : String)
    (h : p ≠ indexPath d) :
    lookupObj (addToProcessedIndex st d rowId) p = lookupObj st p := by
  rw [addToProcessedIndex]
  split_ifs with hmem
  · rfl
  · rw [updateProcessedIndex, lookupObj_writeJSON_ne _ _ _ _ h]

theorem mem_addIdIfAbsent (ids : List String) (id : String) :
    id ∈ addIdIfAbsent ids id := by
  rw [addIdIfAbsent]
  split_ifs with h
  · exact h
  · exact List.mem_append_right _ (List.mem_singleton.mpr rfl)

theorem auditBatchGo_length (d : String) (outcomes : RowRecord → CallOutcome)
    (st : Store) (l : List RowRecord) :
    (auditBatchGo d outcomes st l).2.length = l.length := by
  induction l generalizing st with
  | nil => rfl
  | cons r rs ih =>
    rw [auditBatchGo]
    dsimp only
    simp [ih]

/-- C7: `auditRecord` adds the record id to the ledger exactly when the
result is persisted under `processed/` or `manual_review/`; a thrown oracle
error is caught (the function still returns a document), the error-status
document is persisted under `failed/`, the ledger is unchanged, the record
is selected again as unprocessed on the next run, and the batch still
produces one result per unprocessed record. -/
theorem C7_error_path_excluded_from_ledger (st : Store) (d : String) (r : RowRecord)
    (o : CallOutcome) (hb : st.bucketAvailable = true) :
    (∀ score reason, o = .returned (.manualReview score reason) →
      lookupObj (auditRecord st d r o).1 (manualReviewPath d r.rowId) =
        some (.doc (auditRecord st d r o).2) ∧
      indexIds (auditRecord st d r o).1 d = addIdIfAbsent (indexIds st d) r.rowId ∧
      r.rowId ∈ indexIds (auditRecord st d r o).1 d) ∧
    (∀ er v, o = .returned (.extracted er v) →
      lookupObj (auditRecord st d r o).1 (processedPath d r.rowId) =
        some (.doc (auditRecord st d r o).2) ∧
      indexIds (auditRecord st d r o).1 d = addIdIfAbsent (indexIds st d) r.rowId ∧
      r.rowId ∈ indexIds (auditRecord st d r o).1 d) ∧
    (∀ e, o = .threw e →
      (auditRecord st d r o).2 = ⟨r.rowId, "error", some e.tag⟩ ∧
      lookupObj (auditRecord st d r o).1 (failedPath d r.rowId) =
        some (.doc ⟨r.rowId, "error", some e.tag⟩) ∧
      indexIds (auditRecord st d r o).1 d = indexIds st d ∧
      (∀ records : List RowRecord, r ∈ records →
        r.rowId ∉ (getProcessedRowIds st d).1 →
        r ∈ (getUnprocessedRecords records (auditRecord st d r o).1 d).1)) ∧
    (∀ (outcomes : RowRecord → CallOutcome) (records : List RowRecord),
      (auditAllRecords st d records outcomes).2.length =
        (getUnprocessedRecords records st d).1.length) := by
  refine ⟨?_, ?_, ?_, ?_⟩
  · intro score reason ho
    subst ho
    rw [auditRecord]
    rw [if_pos hb]
    refine ⟨?_, ?_, ?_⟩
    · rw [lookupObj_addToProcessedIndex_ne _ _ _ _
        (fun h => indexPath_ne_manualReviewPath d r.rowId h.symm),
        lookupObj_writeJSON_self]
    · rw [indexIds_addToProcessedIndex,
        indexIds_writeJSON_ne _ _ _ _ (indexPath_ne_manualReviewPath d r.rowId)]
    · rw [indexIds_addToProcessedIndex,
        indexIds_writeJSON_ne _ _ _ _ (indexPath_ne_manualReviewPath d r.rowId)]
      exact mem_addIdIfAbsent _ _
  · intro er v ho
    subst ho
    rw [auditRecord]
    rw [if_pos hb]
    refine ⟨?_, ?_, ?_⟩
    · rw [lookupObj_addToProcessedIndex_ne _ _ _ _
        (fun h => indexPath_ne_processedPath d r.rowId h.symm),
        lookupObj_writeJSON_self]
    · rw [indexIds_addToProcessedIndex,
        indexIds_writeJSON_ne _ _ _ _ (indexPath_ne_processedPath d r.rowId)]
    · rw [indexIds_addToProcessedIndex,
        indexIds_writeJSON_ne _ _ _ _ (indexPath_ne_processedPath d r.rowId)]
      exact mem_addIdIfAbsent _ _
  · intro e ho
    subst ho
    rw [auditRecord]
    rw [if_pos hb]
    refine ⟨rfl, lookupObj_writeJSON_self _ _ _, ?_, ?_⟩
    · exact indexIds_writeJSON_ne _ _ _ _ (indexPath_ne_failedPath d r.rowId)
    · intro records hmem hnot
      rw [getUnprocessedRecords, if_pos (by rw [writeJSON_bucketAvailable]; exact hb)]
      dsimp only
      rw [List.mem_filter]
      refine ⟨hmem, ?_⟩
      rw [getProcessedRowIds_fst_write_failed]
      simpa [contains_iff_mem] using hnot
  · intro outcomes records
    rw [auditAllRecords]
    split_ifs <;> exact auditBatchGo_length d outcomes _ _

/-- Witness store for C7: empty bucket, bucket available. -/
def w7St : Store := ⟨[], true⟩

/-- C7 (witness): a thrown oracle error at a concrete record persists the
error document under `failed/`. -/
theorem C7_error_path_excluded_from_ledger_witness :
    lookupObj (auditRecord w7St ("2025/01/01") ⟨"r1"⟩ (.threw ⟨none, none, "boom"⟩)).1
        (failedPath ("2025/01/01") "r1") =
      some (.doc ⟨"r1", "error", some ("boom")⟩) :=
  ((C7_error_path_excluded_from_ledger w7St ("2025/01/01") ⟨"r1"⟩
    (.threw ⟨none, none, "boom"⟩) rfl).2.2.1 ⟨none, none, "boom"⟩ rfl).2.1

/-- C8: with an available bucket, `getUnprocessedRecords` returns exactly
the records whose id is not in the processed-id set: the union of the two
covers the input and the two are disjoint. -/
theorem C8_unprocessed_partition (records : List RowRecord) (st : Store) (d : String)
    (hb : st.bucketAvailable = true) :
    (∀ r ∈ records, r ∈ (getUnprocessedRecords records st d).1 ∨
      r.rowId ∈ (getProcessedRowIds st d).1) ∧
    (∀ r ∈ (getUnprocessedRecords records st d).1,
      r ∈ records ∧ r.rowId ∉ (getProcessedRowIds st d).1) ∧
    (∀ r, r ∈ (getUnprocessedRecords records st d).1 ↔
      r ∈ records ∧ r.rowId ∉ (getProcessedRowIds st d).1) := by
  have hmem : ∀ r, r ∈ (getUnprocessedRecords records st d).1 ↔
      r ∈ records ∧ r.rowId ∉ (getProcessedRowIds st d).1 := by
    intro r
    rw [getUnprocessedRecords, if_pos hb]
    dsimp only
    rw [List.mem_filter]
    simp [contains_iff_mem]
  refine ⟨?_, fun r hr => (hmem r).mp hr, hmem⟩
  intro r hr
  by_cases h : r.rowId ∈ (getProcessedRowIds st d).1
  · exact Or.inr h
  · exact Or.inl ((hmem r).mpr ⟨hr, h⟩)

/-- Witness store for C8: empty bucket, bucket available. -/
def w8St : Store := ⟨[], true⟩

/-- C8 (witness): with an empty store, a record is returned as
unprocessed. -/
theorem C8_unprocessed_partition_witness :
    (⟨"a"⟩ : RowRecord) ∈ (getUnprocessedRecords [⟨"a"⟩] w8St ("2025/01/01")).1 :=
  ((C8_unprocessed_partition [⟨"a"⟩] w8St ("2025/01/01") rfl).2.2 ⟨"a"⟩).mpr
    ⟨by decide, by decide⟩

/-- C9: when the ledger index document is absent, `getProcessedRowIds`
rebuilds only from the `processed/` prefix: an id whose only persisted
result lives under `manual_review/` is absent from the returned set and
from the materialized index, and its record is returned as unprocessed on
the next run. -/
theorem C9_index_rebuild_ignores_manual_review (st : Store) (d id : String)
    (hb : st.bucketAvailable = true)
    (hidx : lookupObj st (indexPath d) = none)
    (hmr : ∃ c, lookupObj st (manualReviewPath d id) = some c)
    (hnp : ∀ name ∈ listFiles st (processedDir d), basenameJson name ≠ id) :
    id ∉ (getProcessedRowIds st d).1 ∧
    (∀ ids2, lookupObj (getProcessedRowIds st d).2 (indexPath d) = some (.indexDoc ids2) →
      id ∉ ids2) ∧
    (∀ (records : List RowRecord) (r : RowRecord), r ∈ records → r.rowId = id →
      r ∈ (getUnprocessedRecords records (getProcessedRowIds st d).2 d).1) := by
  have hnotin : id ∉ (listFiles st (processedDir d)).map basenameJson := by
    intro hmem
    obtain ⟨name, hn, hbn⟩ := List.mem_map.mp hmem
    exact hnp name hn hbn
  have hfst : (getProcessedRowIds st d).1 = (listFiles st (processedDir d)).map basenameJson := by
    rw [getProcessedRowIds, hidx]
    dsimp only
    split_ifs <;> rfl
  by_cases hemp : ((listFiles st (processedDir d)).map basenameJson).isEmpty
  · have hsnd : (getProcessedRowIds st d).2 = st := by
      rw [getProcessedRowIds, hidx]
      dsimp only
      rw [if_pos hemp]
    refine ⟨hfst ▸ hnotin, ?_, ?_⟩
    · intro ids2 h2
      rw [hsnd, hidx] at h2
      cases h2
    · intro records r hmem hid
      rw [hsnd, getUnprocessedRecords, if_pos hb]
      dsimp only
      rw [List.mem_filter]
      refine ⟨hmem, ?_⟩
      rw [hfst]
      simp only [contains_iff_mem]
      simpa [hid] using hnotin
  · have hsnd : (getProcessedRowIds st d).2 =
        updateProcessedIndex st d ((listFiles st (processedDir d)).map basenameJson) := by
      rw [getProcessedRowIds, hidx]
      dsimp only
      rw [if_neg hemp]
    refine ⟨hfst ▸ hnotin, ?_, ?_⟩
    · intro ids2 h2
      rw [hsnd, updateProcessedIndex, lookupObj_writeJSON_self] at h2
      cases h2
      exact hnotin
    · intro records r hmem hid
      rw [hsnd, getUnprocessedRecords,
        if_pos (by rw [updateProcessedIndex, writeJSON_bucketAvailable]; exact hb)]
      dsimp only
      rw [List.mem_filter]
      refine ⟨hmem, ?_⟩
      have hfast : (getProcessedRowIds (updateProcessedIndex st d
          ((listFiles st (processedDir d)).map basenameJson)) d).1 =
          (listFiles st (processedDir d)).map basenameJson := by
        rw [getProcessedRowIds, updateProcessedIndex, lookupObj_writeJSON_self]
      rw [hfast]
      simp only [contains_iff_mem]
      simpa [hid] using hnotin

/-- Witness store for C9: one manual-review result for `r1`, no index, no
`processed/` files. -/
def w9St : Store :=
  ⟨[(manualReviewPath ("2025/01/01") "r1", .doc ⟨"r1", "requiere_revision_manual", none⟩)], true⟩

/-- C9 (witness): after an index loss, the manual-review-only record is
selected as unprocessed again. -/
theorem C9_index_rebuild_ignores_manual_review_witness :
    (⟨"r1"⟩ : RowRecord) ∈
      (getUnprocessedRecords [⟨"r1"⟩] (getProcessedRowIds w9St ("2025/01/01")).2
        ("2025/01/01")).1 :=
  (C9_index_rebuild_ignores_manual_review w9St ("2025/01/01") "r1" rfl (by decide)
    ⟨_, rfl⟩ (by decide)).2.2 [⟨"r1"⟩] ⟨"r1"⟩ (by decide) rfl

/-! ## Claim C10: `comparePlaca` at its real interface -/

/-- C10: with a `null`/`undefined` expected placa and a non-empty extracted
placa, `comparePlaca` throws (and the `TypeError` propagates out of
`validateExtraction`); with a string expected placa it never throws, and
for a non-empty extracted placa it returns exactly trim-plus-uppercase
equality of the two sides. -/
theorem C10_placa_type_safety :
    (∀ x, x ≠ "" → comparePlaca x none = .error placaTypeError) ∧
    (∀ (er : ExtractionResult) (ev : ExpectedValues) (vp : List String),
      er.placa.valor ≠ "" → ev.placa = none →
      validateExtraction er ev vp = .error placaTypeError) ∧
    (∀ x p, ∃ c, comparePlaca x (some p) = .ok c) ∧
    (∀ x p, x ≠ "" →
      comparePlaca x (some p) = .ok (comparePlacaStr x p) ∧
      ((comparePlacaStr x p).coincide = true ↔
        jsToUpper (jsTrim x) = jsToUpper (jsTrim p))) := by
  have hthrow : ∀ x, x ≠ "" → comparePlaca x none = .error placaTypeError := by
    intro x hx
    rw [comparePlaca, if_neg hx]
  refine ⟨hthrow, ?_, ?_, ?_⟩
  · intro er ev vp hx hev
    rw [validateExtraction, hev, hthrow er.placa.valor hx]
  · intro x p
    by_cases hx : x = ""
    · exact ⟨_, by rw [comparePlaca, if_pos hx]⟩
    · exact ⟨_, by rw [comparePlaca, if_neg hx]⟩
  · intro x p hx
    refine ⟨by rw [comparePlaca, if_neg hx], ?_⟩
    rw [comparePlacaStr, if_neg hx]
    dsimp only
    split_ifs with h
    · simp [h]
    · simp [h]

/-- C10 (witness): the throwing case at a concrete non-empty placa. -/
theorem C10_placa_type_safety_witness :
    comparePlaca ("ABC123") none = .error placaTypeError :=
  C10_placa_type_safety.1 ("ABC123") (by decide)

end Dumpify
